import Mathlib

/-!
Shallow embedding of the `ec2tagger` telegraf processor plugin
(`plugins/processors/ec2tagger`).  The Go code enriches metrics with EC2
instance metadata and EC2 instance tags kept in a periodically refreshed
cache.  External effects (the EC2 metadata endpoint, the DescribeTags API,
the hostname, goroutine scheduling) are made explicit parameters; machine
integers (`time.Duration` = int64 nanoseconds, the 64-bit FNV hash) are
modelled with `Int`/`Nat` and explicit `% 2^64` where overflow matters.
-/

set_option autoImplicit false

namespace Ec2Tagger

/-- Go constant `ec2InstanceTagKeyASG = "aws:autoscaling:groupName"`. -/
def ec2InstanceTagKeyASG : String := "aws:autoscaling:groupName"

/-- Go constant `cwDimensionASG = "AutoScalingGroupName"`. -/
def cwDimensionASG : String := "AutoScalingGroupName"

/-- Go constant `mdKeyInstanceId = "InstanceId"`. -/
def mdKeyInstanceId : String := "InstanceId"

/-- Go constant `mdKeyImageId = "ImageId"`. -/
def mdKeyImageId : String := "ImageId"

/-- Go constant `mdKeyInstaneType = "InstanceType"` (sic, source spelling). -/
def mdKeyInstaneType : String := "InstanceType"

/-- Go constant `defaultRefreshInterval = 180 * time.Second`, in nanoseconds. -/
def defaultRefreshInterval : Int := 180 * 1000000000

/-- A Go `map[string]string`, modelled as an association list with unique
keys; `setTag` is map assignment `m[k] = v` (overwrite the existing entry
for `k`, or append a fresh one). -/
abbrev TagMap := List (String × String)

/-- Map assignment `m[k] = v` on the association-list model of a Go map. -/
def setTag : TagMap → String → String → TagMap
  | [], k, v => [(k, v)]
  | (k', v') :: rest, k, v =>
      if k' = k then (k, v) :: rest else (k', v') :: setTag rest k v

/-- Map lookup `m[k]` on the association-list model of a Go map
(first entry wins; on a unique-key list this is the map lookup). -/
def lookupTag (k : String) : TagMap → Option String
  | [] => none
  | (k', v) :: rest => if k' = k then some v else lookupTag k rest

/-- Lookup returning the value of the LAST entry for `k`; used to describe
the result of folding `setTag` over a list of insertions. -/
def lookupLastTag (k : String) : TagMap → Option String
  | [] => none
  | (k', v) :: rest =>
      match lookupLastTag k rest with
      | some v' => some v'
      | none => if k' = k then some v else none

/-- The keys of a tag map are pairwise distinct (the Go `map` invariant). -/
def keysNodup (m : TagMap) : Prop := (m.map Prod.fst).Nodup

/-- A metric: only its tag map matters to this plugin. -/
structure Metric where
  tags : TagMap
deriving Repr, DecidableEq

/-- `metric.AddTag(k, v)`. -/
def Metric.addTag (m : Metric) (k v : String) : Metric :=
  { tags := setTag m.tags k v }

/-- The EC2 instance identity document fields the plugin reads
(`getEC2Metadata` copies these four). -/
structure IdentityDocument where
  instanceID : String
  instanceType : String
  imageID : String
  region : String
deriving Repr, DecidableEq

/-- The ec2metadata collaborator: `Available()` plus
`GetInstanceIdentityDocument()` (which may fail). -/
structure MetadataAPI where
  available : Bool
  identityDocument : Except String IdentityDocument

/-- One `ec2.Filter` of the DescribeTags query: a name and a value list. -/
structure Filter where
  name : String
  values : List String
deriving Repr, DecidableEq

/-- One `ec2.DescribeTagsOutput` page: the returned (key, value) tag pairs
and the optional pagination token. -/
structure DescribeTagsOutput where
  tags : List (String × String)
  nextToken : Option String
deriving Repr, DecidableEq

/-- The DescribeTags collaborator: for a filter list, the sequence of page
responses the service returns to the successive (re-tokenized) calls of the
pagination loop. -/
abbrev TagService := List Filter → List (Except String DescribeTagsOutput)

/-- The `Tagger` processor state.  `time.Duration` fields are `Int`
nanoseconds.  The `done` channel is `none` when nil, `some false` when open
and `some true` when closed; `refreshStarted` records whether
`go t.refreshTags(...)` was launched.  Credential fields are omitted: they
are passed through to client construction and never read by the logic
modelled here. -/
structure Tagger where
  RefreshInterval : Int := 0
  EC2MetadataTags : List String := []
  EC2InstanceTagKeys : List String := []
  instanceId : String := ""
  instanceType : String := ""
  imageId : String := ""
  region : String := ""
  ec2TagsCache : TagMap := []
  done : Option Bool := none
  refreshStarted : Bool := false
deriving Repr, DecidableEq

/-- `func (t Tagger) isGettingEC2Tags() bool { return len(t.EC2InstanceTagKeys) > 0 }` -/
def Tagger.isGettingEC2Tags (t : Tagger) : Bool :=
  t.EC2InstanceTagKeys.length > 0

/-- `isGettingAllEC2Tags`: exactly one configured key and it is `"*"`. -/
def Tagger.isGettingAllEC2Tags (t : Tagger) : Bool :=
  t.EC2InstanceTagKeys.length == 1 && t.EC2InstanceTagKeys.headD "" == "*"

/-- `isRefreshingEC2Tags`: the refresh interval is positive. -/
def Tagger.isRefreshingEC2Tags (t : Tagger) : Bool :=
  t.RefreshInterval > 0

/-- The key translation done on the CONFIGURED key list before building the
filter: `AutoScalingGroupName` becomes `aws:autoscaling:groupName`
(loop body of `getEC2TagsFetchFunc`). -/
def translateConfiguredKey (key : String) : String :=
  if key = cwDimensionASG then ec2InstanceTagKeyASG else key

/-- The key renaming done on INGESTED tags inside `fetchFunc`:
`aws:autoscaling:groupName` is stored as `AutoScalingGroupName`. -/
def renameFetchedKey (key : String) : String :=
  if key = ec2InstanceTagKeyASG then cwDimensionASG else key

/-- `getEC2Metadata`: check availability, fetch the identity document, and
copy its four fields into the Tagger.  Errors leave the Tagger unchanged
(the Go method assigns fields only after a successful call). -/
def Tagger.getEC2Metadata (t : Tagger) (md : MetadataAPI) : Except String Tagger :=
  if !md.available then
    Except.error "E! ec2tagger: Unable to retrieve InstanceId. This plugin must only be used on an EC2 instance"
  else
    match md.identityDocument with
    | Except.error e => Except.error ("E! ec2tagger: Unable to retrieve InstanceId : " ++ e)
    | Except.ok doc =>
        Except.ok { t with
          instanceId := doc.instanceID
          instanceType := doc.instanceType
          imageId := doc.imageID
          region := doc.region }

/-- The filter-list construction and the in-place key translation of
`getEC2TagsFetchFunc` (lines 218-242): returns the Tagger (whose
`EC2InstanceTagKeys` slice has been rewritten in the non-wildcard branch)
together with the filters captured by the returned closure. -/
def Tagger.getEC2TagsFetchFunc (t : Tagger) : Tagger × List Filter :=
  let tagFilters : List Filter :=
    [ { name := "resource-type", values := ["instance"] },
      { name := "resource-id", values := [t.instanceId] } ]
  if t.isGettingAllEC2Tags then
    (t, tagFilters)
  else
    let keys := t.EC2InstanceTagKeys.map translateConfiguredKey
    ({ t with EC2InstanceTagKeys := keys },
     tagFilters ++ [{ name := "key", values := keys }])

/-- Ingest one DescribeTags page into the accumulated map: each entry's key
is renamed by `renameFetchedKey` and assigned (`tags[key] = *tag.Value`). -/
def ingestPage (acc : TagMap) (entries : List (String × String)) : TagMap :=
  entries.foldl (fun m kv => setTag m (renameFetchedKey kv.1) kv.2) acc

/-- The pagination loop of the closure returned by `getEC2TagsFetchFunc`
(lines 252-269), driven by the successive service responses: an error on
any page aborts the whole fetch with that error; otherwise the page's tags
are ingested and the loop stops when `NextToken` is nil.  An exhausted
response list models a service that never answers the next call, which the
source loop cannot complete; it is mapped to an error. -/
def fetchLoop : List (Except String DescribeTagsOutput) → TagMap → Except String TagMap
  | [], _ => Except.error "ec2tagger model: DescribeTags gave no response"
  | resp :: rest, acc =>
      match resp with
      | Except.error e => Except.error e
      | Except.ok out =>
          let acc := ingestPage acc out.tags
          match out.nextToken with
          | none => Except.ok acc
          | some _ => fetchLoop rest acc

/-- `fetchFunc()`: run the pagination loop on the responses the service
gives for the captured filters, starting from the empty map. -/
def fetchFunc (filters : List Filter) (svc : TagService) : Except String TagMap :=
  fetchLoop (svc filters) []

/-- Lines 134-137 of `Start`: create the `done` channel, then substitute
the default refresh interval for a zero one. -/
def Tagger.startSetup (t : Tagger) : Tagger :=
  let t := { t with done := some false }
  if t.RefreshInterval = (0 : Int)
  then { t with RefreshInterval := defaultRefreshInterval } else t

/-- Lines 146-148 of `Start`: launch `go t.refreshTags(fetchEC2Tags)` when
the (already defaulted) interval is positive. -/
def Tagger.launchRefresh (t : Tagger) : Tagger :=
  if t.isRefreshingEC2Tags then { t with refreshStarted := true } else t

/-- The `isGettingEC2Tags` branch of `Start` (lines 133-149): setup, build
the fetch closure (translating the key list in place), run the synchronous
first fetch, and either fail or install the cache and launch the
refresher. -/
def Tagger.startTagPhase (t : Tagger) (svc : TagService) : Tagger × Option String :=
  let p := t.startSetup.getEC2TagsFetchFunc
  match fetchFunc p.2 svc with
  | Except.error e =>
      (p.1, some ("E! ec2tagger: Failed to start ec2tagger: " ++ e))
  | Except.ok tags =>
      ({ p.1 with ec2TagsCache := tags }.launchRefresh, none)

/-- `Start` (lines 129-151).  Mirrors the in-place mutation of the Go
receiver: the returned Tagger is the state after `Start`, the `Option
String` is the returned error (`none` = success). -/
def Tagger.Start (t : Tagger) (md : MetadataAPI) (svc : TagService) : Tagger × Option String :=
  match t.getEC2Metadata md with
  | Except.error e => (t, some ("E! ec2tagger: failed to retrieve ec2 metadata: " ++ e))
  | Except.ok t =>
      if t.isGettingEC2Tags then t.startTagPhase svc
      else (t, none)

/-- `Stop` (lines 153-157): a nil `done` channel is left alone; an open one
is closed by `close(t.done)`; closing an already-closed channel panics,
modelled as `none`. -/
def Tagger.Stop (t : Tagger) : Option Tagger :=
  match t.done with
  | none => some t
  | some false => some { t with done := some true }
  | some true => none

/-- The per-metric body of `Apply`, step 1: add every cached tag
(`for k, v := range tags { metric.AddTag(k, v) }`). -/
def addCachedTags (cache : TagMap) (m : Metric) : Metric :=
  cache.foldl (fun m kv => m.addTag kv.1 kv.2) m

/-- One iteration of the `EC2MetadataTags` switch: a supported key adds the
matching identity field as a tag; the default branch calls `log.Fatalf`,
which kills the process — modelled as `none`. -/
def Tagger.applyMetadataTag (t : Tagger) (m : Metric) (tag : String) : Option Metric :=
  if tag = mdKeyInstanceId then some (m.addTag mdKeyInstanceId t.instanceId)
  else if tag = mdKeyImageId then some (m.addTag mdKeyImageId t.imageId)
  else if tag = mdKeyInstaneType then some (m.addTag mdKeyInstaneType t.instanceType)
  else none

/-- The per-metric body of `Apply` (lines 165-181): cached tags first, then
the configured metadata tags in order. -/
def Tagger.applyOne (t : Tagger) (m : Metric) : Option Metric :=
  t.EC2MetadataTags.foldlM t.applyMetadataTag (addCachedTags t.ec2TagsCache m)

/-- `Apply` (lines 161-183): the cache snapshot is read once and every
metric is processed with it; `log.Fatalf` anywhere aborts everything. -/
def Tagger.Apply (t : Tagger) (ms : List Metric) : Option (List Metric) :=
  ms.mapM t.applyOne

/-- One tick of the `refreshTags` select loop (lines 191-199): a failed
fetch keeps the old cache (`continue`); a successful one replaces it. -/
def refreshTick (cache : TagMap) (result : Except String TagMap) : TagMap :=
  match result with
  | Except.error _ => cache
  | Except.ok newTags => newTags

/-- The cache after a run of refresh ticks whose fetch results are
`results`, starting from `cache`: the loop never exits on an error, so the
ticks fold over the cache. -/
def refreshRun (cache : TagMap) (results : List (Except String TagMap)) : TagMap :=
  results.foldl refreshTick cache

/-- Number of invocations of `fetchEC2Tags` made inside `Start` itself:
one when metadata resolution succeeds and at least one tag key is
configured (line 140), zero otherwise. -/
def startFetchCount (t : Tagger) (md : MetadataAPI) : Nat :=
  match t.getEC2Metadata md with
  | Except.error _ => 0
  | Except.ok t' => if t'.isGettingEC2Tags then 1 else 0

/-- Total fetches over the component's lifetime when the refresh loop (if
launched) experiences `ticks` timer ticks: the `Start` fetch plus one fetch
per tick of a launched scheduler; a scheduler that was never started
contributes nothing. -/
def lifetimeFetchCount (t : Tagger) (md : MetadataAPI) (svc : TagService) (ticks : Nat) : Nat :=
  startFetchCount t md + (if (t.Start md svc).1.refreshStarted then ticks else 0)

/-- FNV-1 64-bit hash of a byte sequence (Go `fnv.New64()` then `Write`):
offset basis 14695981039346656037, prime 1099511628211, multiply-then-xor
per byte, all arithmetic modulo 2^64. -/
def fnv1Hash64 (bytes : List Nat) : Nat :=
  bytes.foldl (fun h b => (h * 1099511628211 % 2 ^ 64) ^^^ b) 14695981039346656037

/-- `hostJitter(max)` (lines 302-308), with the hostname made explicit as
its byte sequence: hash the hostname with FNV-1 64, clear the sign bit by a
right shift, and take the Go (truncated) remainder by `max`.  `max = 0` is
a division by zero, which panics in Go — modelled as `none`. -/
def hostJitter (hostname : List Nat) (max : Int) : Option Int :=
  if max = 0 then none
  else some (Int.tmod ((fnv1Hash64 hostname >>> 1 : Nat) : Int) max)

/-- Helper: the Go map assignments done by folding `setTag` over an entry
list (`ingestPage`, the `Apply` loops) — entries already carry final keys. -/
def setTags (init : TagMap) (entries : List (String × String)) : TagMap :=
  entries.foldl (fun m kv => setTag m kv.1 kv.2) init

/-- The entries of a DescribeTags page sequence concatenated in order. -/
def pagesEntries : List DescribeTagsOutput → List (String × String)
  | [] => []
  | p :: rest => p.tags ++ pagesEntries rest

/-- Entries as ingested by `fetchFunc`: keys renamed by `renameFetchedKey`. -/
def renamedEntries (entries : List (String × String)) : List (String × String) :=
  entries.map (fun kv => (renameFetchedKey kv.1, kv.2))

theorem lookupTag_setTag (l : TagMap) (k v k' : String) :
    lookupTag k' (setTag l k v) = if k = k' then some v else lookupTag k' l := by
  induction l with
  | nil => simp [setTag, lookupTag]
  | cons hd tl ih =>
      obtain ⟨k₀, v₀⟩ := hd
      by_cases h₀ : k₀ = k
      · subst h₀
        simp only [setTag, if_pos rfl, lookupTag]
        split_ifs <;> simp_all
      · simp only [setTag, if_neg h₀, lookupTag, ih]
        split_ifs <;> simp_all

theorem mem_keys_setTag (l : TagMap) (k v a : String) :
    a ∈ (setTag l k v).map Prod.fst ↔ a ∈ l.map Prod.fst ∨ a = k := by
  induction l with
  | nil => simp [setTag]
  | cons hd tl ih =>
      obtain ⟨k₀, v₀⟩ := hd
      simp only [setTag]
      split_ifs with h₀
      · subst h₀; simp; tauto
      · simp [ih]; tauto

theorem keysNodup_setTag (k v : String) :
    ∀ l : TagMap, keysNodup l → keysNodup (setTag l k v) := by
  intro l
  induction l with
  | nil => intro _; simp [keysNodup, setTag]
  | cons hd tl ih =>
      intro h
      obtain ⟨k₀, v₀⟩ := hd
      simp only [keysNodup, List.map, List.nodup_cons] at h
      simp only [setTag]
      split_ifs with h₀
      · subst h₀
        simpa [keysNodup, List.nodup_cons] using h
      · simp only [keysNodup, List.map, List.nodup_cons]
        refine ⟨fun hmem => ?_, ih h.2⟩
        rcases (mem_keys_setTag tl k v k₀).mp hmem with h1 | h1
        · exact h.1 h1
        · exact h₀ h1

theorem lookupTag_eq_none_iff (k : String) :
    ∀ l : TagMap, lookupTag k l = none ↔ k ∉ l.map Prod.fst := by
  intro l
  induction l with
  | nil => simp [lookupTag]
  | cons hd tl ih =>
      obtain ⟨k₀, v₀⟩ := hd
      by_cases h₀ : k₀ = k
      · subst h₀
        simp [lookupTag]
      · simp only [lookupTag, if_neg h₀, ih, List.map_cons, List.mem_cons]
        constructor
        · intro hnot h
          rcases h with h | h
          · exact h₀ h.symm
          · exact hnot h
        · intro hnot h
          exact hnot (Or.inr h)

theorem lookupLastTag_eq_lookupTag (k : String) :
    ∀ l : TagMap, keysNodup l → lookupLastTag k l = lookupTag k l := by
  intro l
  induction l with
  | nil => intro _; rfl
  | cons hd tl ih =>
      intro h
      obtain ⟨k₀, v₀⟩ := hd
      simp only [keysNodup, List.map, List.nodup_cons] at h
      have ihtl := ih h.2
      simp only [lookupLastTag, lookupTag, ihtl]
      by_cases hk : k₀ = k
      · subst hk
        have : lookupTag k₀ tl = none := (lookupTag_eq_none_iff k₀ tl).mpr h.1
        simp [this]
      · simp only [if_neg hk]
        cases lookupTag k tl <;> simp

theorem lookupTag_setTags (k : String) :
    ∀ (entries : List (String × String)) (init : TagMap),
      lookupTag k (setTags init entries) =
        match lookupLastTag k entries with
        | some v => some v
        | none => lookupTag k init := by
  intro entries
  induction entries with
  | nil => intro init; rfl
  | cons hd tl ih =>
      intro init
      obtain ⟨k₀, v₀⟩ := hd
      show lookupTag k (setTags (setTag init k₀ v₀) tl) = _
      rw [ih (setTag init k₀ v₀)]
      simp only [lookupLastTag]
      cases h : lookupLastTag k tl with
      | some v => rfl
      | none =>
          simp only [lookupTag_setTag]
          by_cases hk : k₀ = k <;> simp [hk]

theorem keysNodup_setTags :
    ∀ (entries : List (String × String)) (init : TagMap),
      keysNodup init → keysNodup (setTags init entries) := by
  intro entries
  induction entries with
  | nil => intro init h; exact h
  | cons hd tl ih =>
      intro init h
      simp only [setTags, List.foldl_cons] at *
      exact ih _ (keysNodup_setTag hd.1 hd.2 init h)

theorem lookupLastTag_of_mem (k v : String) :
    ∀ l : TagMap, (k, v) ∈ l → ∃ v', lookupLastTag k l = some v' := by
  intro l
  induction l with
  | nil => intro h; cases h
  | cons hd tl ih =>
      intro h
      obtain ⟨k₀, v₀⟩ := hd
      rcases List.mem_cons.mp h with h1 | h1
      · injection h1 with hk hv
        subst hk
        cases hlast : lookupLastTag k tl with
        | some v' => exact ⟨v', by simp [lookupLastTag, hlast]⟩
        | none => exact ⟨v₀, by simp [lookupLastTag, hlast]⟩
      · obtain ⟨v', hv'⟩ := ih h1
        exact ⟨v', by simp [lookupLastTag, hv']⟩

theorem lookupLastTag_eq_none_of_keys (k : String) :
    ∀ l : TagMap, (∀ kv ∈ l, kv.1 ≠ k) → lookupLastTag k l = none := by
  intro l
  induction l with
  | nil => intro _; rfl
  | cons hd tl ih =>
      intro h
      simp only [lookupLastTag]
      rw [ih (fun kv hkv => h kv (List.mem_cons_of_mem hd hkv))]
      simp only [if_neg (h hd (List.mem_cons_self hd tl))]

theorem ingestPage_eq (acc : TagMap) (entries : List (String × String)) :
    ingestPage acc entries = setTags acc (renamedEntries entries) := by
  simp [ingestPage, setTags, renamedEntries, List.foldl_map]

theorem renameFetchedKey_ne_asg (k : String) :
    renameFetchedKey k ≠ ec2InstanceTagKeyASG := by
  unfold renameFetchedKey
  split_ifs with h
  · decide
  · exact h

theorem fetchLoop_ok_keysNodup :
    ∀ (pages : List (Except String DescribeTagsOutput)) (acc m : TagMap),
      fetchLoop pages acc = Except.ok m → keysNodup acc → keysNodup m := by
  intro pages
  induction pages with
  | nil => intro acc m h _; simp [fetchLoop] at h
  | cons resp rest ih =>
      intro acc m h hacc
      cases resp with
      | error e => simp [fetchLoop] at h
      | ok out =>
          have hnodup : keysNodup (ingestPage acc out.tags) := by
            rw [ingestPage_eq]
            exact keysNodup_setTags _ _ hacc
          cases hnt : out.nextToken with
          | none =>
              simp only [fetchLoop, hnt, Except.ok.injEq] at h
              rw [← h]
              exact hnodup
          | some tok =>
              simp only [fetchLoop, hnt] at h
              exact ih _ _ h hnodup

theorem fetchLoop_ok_lookup_asg :
    ∀ (pages : List (Except String DescribeTagsOutput)) (acc m : TagMap),
      fetchLoop pages acc = Except.ok m →
      lookupTag ec2InstanceTagKeyASG m = lookupTag ec2InstanceTagKeyASG acc := by
  intro pages
  induction pages with
  | nil => intro acc m h; simp [fetchLoop] at h
  | cons resp rest ih =>
      intro acc m h
      cases resp with
      | error e => simp [fetchLoop] at h
      | ok out =>
          have hstep : lookupTag ec2InstanceTagKeyASG (ingestPage acc out.tags) =
              lookupTag ec2InstanceTagKeyASG acc := by
            rw [ingestPage_eq, lookupTag_setTags]
            have hnone : lookupLastTag ec2InstanceTagKeyASG (renamedEntries out.tags) = none := by
              refine lookupLastTag_eq_none_of_keys _ _ (fun kv hkv => ?_)
              obtain ⟨kv₀, _, hkv₀⟩ := List.mem_map.mp hkv
              rw [← hkv₀]
              exact renameFetchedKey_ne_asg kv₀.1
            simp [hnone]
          cases hnt : out.nextToken with
          | none =>
              simp only [fetchLoop, hnt, Except.ok.injEq] at h
              rw [← h]
              exact hstep
          | some tok =>
              simp only [fetchLoop, hnt] at h
              rw [ih _ _ h]
              exact hstep

theorem fetchLoop_error :
    ∀ (mids : List DescribeTagsOutput) (e : String)
      (rest : List (Except String DescribeTagsOutput)) (acc : TagMap),
      (∀ p ∈ mids, p.nextToken.isSome = true) →
      fetchLoop (mids.map Except.ok ++ Except.error e :: rest) acc = Except.error e := by
  intro mids
  induction mids with
  | nil => intro e rest acc _; rfl
  | cons p mids ih =>
      intro e rest acc hmids
      obtain ⟨tok, htok⟩ :=
        Option.isSome_iff_exists.mp (hmids p (List.mem_cons_self p mids))
      simp only [List.map_cons, List.cons_append, fetchLoop, htok]
      exact ih e rest _ (fun q hq => hmids q (List.mem_cons_of_mem _ hq))

theorem fetchLoop_wellFormed :
    ∀ (mids : List DescribeTagsOutput) (lastPage : DescribeTagsOutput) (acc : TagMap),
      (∀ p ∈ mids, p.nextToken.isSome = true) → lastPage.nextToken = none →
      fetchLoop (mids.map Except.ok ++ [Except.ok lastPage]) acc =
        Except.ok (setTags acc (renamedEntries (pagesEntries (mids ++ [lastPage])))) := by
  intro mids
  induction mids with
  | nil =>
      intro lastPage acc _ hlast
      simp only [List.map_nil, List.nil_append, fetchLoop, hlast]
      rw [ingestPage_eq]
      simp [pagesEntries, renamedEntries]
  | cons p mids ih =>
      intro lastPage acc hmids hlast
      obtain ⟨tok, htok⟩ :=
        Option.isSome_iff_exists.mp (hmids p (List.mem_cons_self p mids))
      simp only [List.map_cons, List.cons_append, fetchLoop, htok, List.append_eq]
      rw [ih lastPage _ (fun q hq => hmids q (List.mem_cons_of_mem _ hq)) hlast]
      rw [ingestPage_eq]
      simp [pagesEntries, renamedEntries, setTags, List.foldl_append]

theorem isGettingEC2Tags_iff (t : Tagger) :
    t.isGettingEC2Tags = true ↔ t.EC2InstanceTagKeys ≠ [] := by
  unfold Tagger.isGettingEC2Tags
  cases h : t.EC2InstanceTagKeys <;> simp [h]

theorem isGettingAllEC2Tags_iff (t : Tagger) :
    t.isGettingAllEC2Tags = true ↔ t.EC2InstanceTagKeys = ["*"] := by
  unfold Tagger.isGettingAllEC2Tags
  rcases h : t.EC2InstanceTagKeys with _ | ⟨a, _ | ⟨b, l⟩⟩ <;> simp [h]

theorem getEC2Metadata_ok_spec (t : Tagger) (md : MetadataAPI) (t₁ : Tagger)
    (h : t.getEC2Metadata md = Except.ok t₁) :
    ∃ doc, md.identityDocument = Except.ok doc ∧
      t₁ = { t with instanceId := doc.instanceID, instanceType := doc.instanceType,
                    imageId := doc.imageID, region := doc.region } := by
  unfold Tagger.getEC2Metadata at h
  split_ifs at h with hav
  cases hdoc : md.identityDocument with
  | error e => rw [hdoc] at h; simp at h
  | ok doc =>
      rw [hdoc] at h
      injection h with h'
      exact ⟨doc, rfl, h'.symm⟩

@[simp] theorem startSetup_done (t : Tagger) : t.startSetup.done = some false := by
  by_cases h : t.RefreshInterval = (0 : Int) <;> simp [Tagger.startSetup, h]

@[simp] theorem startSetup_keys (t : Tagger) :
    t.startSetup.EC2InstanceTagKeys = t.EC2InstanceTagKeys := by
  by_cases h : t.RefreshInterval = (0 : Int) <;> simp [Tagger.startSetup, h]

@[simp] theorem startSetup_mdTags (t : Tagger) :
    t.startSetup.EC2MetadataTags = t.EC2MetadataTags := by
  by_cases h : t.RefreshInterval = (0 : Int) <;> simp [Tagger.startSetup, h]

@[simp] theorem startSetup_cache (t : Tagger) :
    t.startSetup.ec2TagsCache = t.ec2TagsCache := by
  by_cases h : t.RefreshInterval = (0 : Int) <;> simp [Tagger.startSetup, h]

@[simp] theorem startSetup_refreshStarted (t : Tagger) :
    t.startSetup.refreshStarted = t.refreshStarted := by
  by_cases h : t.RefreshInterval = (0 : Int) <;> simp [Tagger.startSetup, h]

@[simp] theorem startSetup_instanceId (t : Tagger) :
    t.startSetup.instanceId = t.instanceId := by
  by_cases h : t.RefreshInterval = (0 : Int) <;> simp [Tagger.startSetup, h]

@[simp] theorem startSetup_instanceType (t : Tagger) :
    t.startSetup.instanceType = t.instanceType := by
  by_cases h : t.RefreshInterval = (0 : Int) <;> simp [Tagger.startSetup, h]

@[simp] theorem startSetup_imageId (t : Tagger) :
    t.startSetup.imageId = t.imageId := by
  by_cases h : t.RefreshInterval = (0 : Int) <;> simp [Tagger.startSetup, h]

theorem startSetup_interval (t : Tagger) :
    t.startSetup.RefreshInterval =
      if t.RefreshInterval = 0 then defaultRefreshInterval else t.RefreshInterval := by
  by_cases h : t.RefreshInterval = (0 : Int) <;> simp [Tagger.startSetup, h]

@[simp] theorem fetchFuncFst_done (t : Tagger) :
    (t.getEC2TagsFetchFunc).1.done = t.done := by
  by_cases h : t.isGettingAllEC2Tags = true <;> simp [Tagger.getEC2TagsFetchFunc, h]

@[simp] theorem fetchFuncFst_interval (t : Tagger) :
    (t.getEC2TagsFetchFunc).1.RefreshInterval = t.RefreshInterval := by
  by_cases h : t.isGettingAllEC2Tags = true <;> simp [Tagger.getEC2TagsFetchFunc, h]

@[simp] theorem fetchFuncFst_mdTags (t : Tagger) :
    (t.getEC2TagsFetchFunc).1.EC2MetadataTags = t.EC2MetadataTags := by
  by_cases h : t.isGettingAllEC2Tags = true <;> simp [Tagger.getEC2TagsFetchFunc, h]

@[simp] theorem fetchFuncFst_cache (t : Tagger) :
    (t.getEC2TagsFetchFunc).1.ec2TagsCache = t.ec2TagsCache := by
  by_cases h : t.isGettingAllEC2Tags = true <;> simp [Tagger.getEC2TagsFetchFunc, h]

@[simp] theorem fetchFuncFst_refreshStarted (t : Tagger) :
    (t.getEC2TagsFetchFunc).1.refreshStarted = t.refreshStarted := by
  by_cases h : t.isGettingAllEC2Tags = true <;> simp [Tagger.getEC2TagsFetchFunc, h]

@[simp] theorem fetchFuncFst_instanceId (t : Tagger) :
    (t.getEC2TagsFetchFunc).1.instanceId = t.instanceId := by
  by_cases h : t.isGettingAllEC2Tags = true <;> simp [Tagger.getEC2TagsFetchFunc, h]

@[simp] theorem fetchFuncFst_instanceType (t : Tagger) :
    (t.getEC2TagsFetchFunc).1.instanceType = t.instanceType := by
  by_cases h : t.isGettingAllEC2Tags = true <;> simp [Tagger.getEC2TagsFetchFunc, h]

@[simp] theorem fetchFuncFst_imageId (t : Tagger) :
    (t.getEC2TagsFetchFunc).1.imageId = t.imageId := by
  by_cases h : t.isGettingAllEC2Tags = true <;> simp [Tagger.getEC2TagsFetchFunc, h]

theorem fetchFuncFst_keys (t : Tagger) :
    (t.getEC2TagsFetchFunc).1.EC2InstanceTagKeys =
      if t.isGettingAllEC2Tags then t.EC2InstanceTagKeys
      else t.EC2InstanceTagKeys.map translateConfiguredKey := by
  by_cases h : t.isGettingAllEC2Tags = true <;> simp [Tagger.getEC2TagsFetchFunc, h]

theorem fetchFunc_filters (t : Tagger) :
    (t.getEC2TagsFetchFunc).2 =
      [{ name := "resource-type", values := ["instance"] },
       { name := "resource-id", values := [t.instanceId] }] ++
        (if t.isGettingAllEC2Tags then []
         else [{ name := "key",
                 values := t.EC2InstanceTagKeys.map translateConfiguredKey }]) := by
  by_cases h : t.isGettingAllEC2Tags = true <;> simp [Tagger.getEC2TagsFetchFunc, h]

@[simp] theorem launchRefresh_done (t : Tagger) :
    t.launchRefresh.done = t.done := by
  by_cases h : t.isRefreshingEC2Tags = true <;> simp [Tagger.launchRefresh, h]

@[simp] theorem launchRefresh_keys (t : Tagger) :
    t.launchRefresh.EC2InstanceTagKeys = t.EC2InstanceTagKeys := by
  by_cases h : t.isRefreshingEC2Tags = true <;> simp [Tagger.launchRefresh, h]

@[simp] theorem launchRefresh_mdTags (t : Tagger) :
    t.launchRefresh.EC2MetadataTags = t.EC2MetadataTags := by
  by_cases h : t.isRefreshingEC2Tags = true <;> simp [Tagger.launchRefresh, h]

@[simp] theorem launchRefresh_cache (t : Tagger) :
    t.launchRefresh.ec2TagsCache = t.ec2TagsCache := by
  by_cases h : t.isRefreshingEC2Tags = true <;> simp [Tagger.launchRefresh, h]

@[simp] theorem launchRefresh_interval (t : Tagger) :
    t.launchRefresh.RefreshInterval = t.RefreshInterval := by
  by_cases h : t.isRefreshingEC2Tags = true <;> simp [Tagger.launchRefresh, h]

@[simp] theorem launchRefresh_instanceId (t : Tagger) :
    t.launchRefresh.instanceId = t.instanceId := by
  by_cases h : t.isRefreshingEC2Tags = true <;> simp [Tagger.launchRefresh, h]

@[simp] theorem launchRefresh_instanceType (t : Tagger) :
    t.launchRefresh.instanceType = t.instanceType := by
  by_cases h : t.isRefreshingEC2Tags = true <;> simp [Tagger.launchRefresh, h]

@[simp] theorem launchRefresh_imageId (t : Tagger) :
    t.launchRefresh.imageId = t.imageId := by
  by_cases h : t.isRefreshingEC2Tags = true <;> simp [Tagger.launchRefresh, h]

theorem launchRefresh_refreshStarted (t : Tagger) :
    t.launchRefresh.refreshStarted = (t.isRefreshingEC2Tags || t.refreshStarted) := by
  by_cases h : t.isRefreshingEC2Tags = true <;> simp [Tagger.launchRefresh, h]

theorem startTagPhase_ok_spec (t t' : Tagger) (svc : TagService)
    (h : t.startTagPhase svc = (t', none)) :
    ∃ tags, fetchFunc (t.startSetup.getEC2TagsFetchFunc).2 svc = Except.ok tags ∧
      t' = Tagger.launchRefresh
             { (t.startSetup.getEC2TagsFetchFunc).1 with ec2TagsCache := tags } := by
  cases hf : fetchFunc (t.startSetup.getEC2TagsFetchFunc).2 svc with
  | error e =>
      simp only [Tagger.startTagPhase, hf] at h
      simp at h
  | ok tags =>
      simp only [Tagger.startTagPhase, hf, Prod.mk.injEq] at h
      exact ⟨tags, rfl, h.1.symm⟩

theorem Start_ok_elim (t : Tagger) (md : MetadataAPI) (svc : TagService) (t' : Tagger)
    (hkeys : t.EC2InstanceTagKeys ≠ [])
    (h : t.Start md svc = (t', none)) :
    ∃ t₁, t.getEC2Metadata md = Except.ok t₁ ∧
      t₁.EC2InstanceTagKeys = t.EC2InstanceTagKeys ∧
      t₁.startTagPhase svc = (t', none) := by
  cases hmd : t.getEC2Metadata md with
  | error e =>
      simp only [Tagger.Start, hmd] at h
      simp at h
  | ok t₁ =>
      obtain ⟨doc, _, ht₁⟩ := getEC2Metadata_ok_spec t md t₁ hmd
      have hk : t₁.EC2InstanceTagKeys = t.EC2InstanceTagKeys := by rw [ht₁]
      have hg : t₁.isGettingEC2Tags = true := by
        rw [isGettingEC2Tags_iff, hk]; exact hkeys
      simp only [Tagger.Start, hmd, hg, if_true] at h
      exact ⟨t₁, rfl, hk, h⟩

theorem Start_ok_elim_noKeys (t : Tagger) (md : MetadataAPI) (svc : TagService) (t' : Tagger)
    (hkeys : t.EC2InstanceTagKeys = [])
    (h : t.Start md svc = (t', none)) :
    t.getEC2Metadata md = Except.ok t' := by
  cases hmd : t.getEC2Metadata md with
  | error e =>
      simp only [Tagger.Start, hmd] at h
      simp at h
  | ok t₁ =>
      obtain ⟨doc, _, ht₁⟩ := getEC2Metadata_ok_spec t md t₁ hmd
      have hk : t₁.EC2InstanceTagKeys = t.EC2InstanceTagKeys := by rw [ht₁]
      have hg : ¬ t₁.isGettingEC2Tags = true := by
        rw [isGettingEC2Tags_iff, hk, hkeys]; simp
      simp only [Tagger.Start, hmd, if_neg hg, Prod.mk.injEq] at h
      rw [h.1]

/-- The StaticIdentity field behind a supported metadata attribute name
(used to state what `Apply` stamps; meaningful only for the three
supported names). -/
def metadataValue (t : Tagger) (tag : String) : String :=
  if tag = mdKeyInstanceId then t.instanceId
  else if tag = mdKeyImageId then t.imageId
  else t.instanceType

theorem applyMetadataTag_supported (t : Tagger) (m : Metric) (tag : String)
    (h : tag = mdKeyInstanceId ∨ tag = mdKeyImageId ∨ tag = mdKeyInstaneType) :
    t.applyMetadataTag m tag = some (m.addTag tag (metadataValue t tag)) := by
  rcases h with h | h | h <;> subst h <;> rfl

theorem foldlM_applyMetadataTag (t : Tagger) :
    ∀ (names : List String) (m : Metric),
      (∀ tag ∈ names, tag = mdKeyInstanceId ∨ tag = mdKeyImageId ∨ tag = mdKeyInstaneType) →
      names.foldlM t.applyMetadataTag m =
        some (names.foldl (fun acc tag => acc.addTag tag (metadataValue t tag)) m) := by
  intro names
  induction names with
  | nil => intro m _; rfl
  | cons tag rest ih =>
      intro m hsup
      have h1 := applyMetadataTag_supported t m tag (hsup tag (List.mem_cons_self tag rest))
      simp only [List.foldlM_cons, h1, Option.bind_eq_bind, Option.some_bind, List.foldl_cons]
      exact ih _ (fun x hx => hsup x (List.mem_cons_of_mem _ hx))

theorem addCachedTags_tags (cache : TagMap) :
    ∀ m : Metric, (addCachedTags cache m).tags = setTags m.tags cache := by
  induction cache with
  | nil => intro m; rfl
  | cons kv rest ih =>
      intro m
      simp only [addCachedTags, List.foldl_cons] at *
      exact ih (m.addTag kv.1 kv.2)

theorem foldl_addTag_tags (t : Tagger) :
    ∀ (names : List String) (m : Metric),
      (names.foldl (fun acc tag => acc.addTag tag (metadataValue t tag)) m).tags =
        setTags m.tags (names.map (fun tag => (tag, metadataValue t tag))) := by
  intro names
  induction names with
  | nil => intro m; rfl
  | cons tag rest ih =>
      intro m
      simp only [List.foldl_cons, List.map_cons, setTags, ih]
      rfl

theorem lookupLastTag_map_pair (f : String → String) (k : String) :
    ∀ names : List String,
      lookupLastTag k (names.map (fun n => (n, f n))) =
        if k ∈ names then some (f k) else none := by
  intro names
  induction names with
  | nil => simp [lookupLastTag]
  | cons n rest ih =>
      simp only [List.map_cons, lookupLastTag, ih]
      by_cases hk : k ∈ rest
      · simp [hk, List.mem_cons]
      · by_cases hn : n = k
        · subst hn
          simp [hk, List.mem_cons]
        · have : ¬ k ∈ n :: rest := by
            simp [List.mem_cons]
            exact ⟨fun h => hn h.symm, hk⟩
          simp [hk, hn, this]

theorem applyOne_lookup (t : Tagger) (m : Metric)
    (hsup : ∀ tag ∈ t.EC2MetadataTags,
      tag = mdKeyInstanceId ∨ tag = mdKeyImageId ∨ tag = mdKeyInstaneType)
    (hnodup : keysNodup t.ec2TagsCache) (hm : m.tags = []) :
    ∃ res, t.applyOne m = some res ∧
      ∀ k, lookupTag k res.tags =
        if k ∈ t.EC2MetadataTags then some (metadataValue t k)
        else lookupTag k t.ec2TagsCache := by
  refine ⟨t.EC2MetadataTags.foldl (fun acc tag => acc.addTag tag (metadataValue t tag))
            (addCachedTags t.ec2TagsCache m), ?_, ?_⟩
  · unfold Tagger.applyOne
    exact foldlM_applyMetadataTag t t.EC2MetadataTags (addCachedTags t.ec2TagsCache m) hsup
  · intro k
    rw [foldl_addTag_tags, addCachedTags_tags, hm, lookupTag_setTags,
        lookupLastTag_map_pair, lookupTag_setTags,
        lookupLastTag_eq_lookupTag k t.ec2TagsCache hnodup]
    by_cases hk : k ∈ t.EC2MetadataTags
    · simp [hk]
    · simp only [if_neg hk]
      cases lookupTag k t.ec2TagsCache <;> simp [lookupTag]

theorem Start_preserves_mdTags (t : Tagger) (md : MetadataAPI) (svc : TagService)
    (t' : Tagger) (hstart : t.Start md svc = (t', none)) :
    t'.EC2MetadataTags = t.EC2MetadataTags := by
  by_cases hkeys : t.EC2InstanceTagKeys = []
  · have hm := Start_ok_elim_noKeys t md svc t' hkeys hstart
    obtain ⟨doc, _, ht'⟩ := getEC2Metadata_ok_spec t md t' hm
    rw [ht']
  · obtain ⟨t₁, hmd, hk, hphase⟩ := Start_ok_elim t md svc t' hkeys hstart
    obtain ⟨tags, hf, ht'⟩ := startTagPhase_ok_spec t₁ t' svc hphase
    obtain ⟨doc, _, ht₁⟩ := getEC2Metadata_ok_spec t md t₁ hmd
    rw [ht']
    simp [ht₁]

theorem Start_cache_keysNodup (t : Tagger) (md : MetadataAPI) (svc : TagService)
    (t' : Tagger) (hkeys : t.EC2InstanceTagKeys ≠ [])
    (hstart : t.Start md svc = (t', none)) :
    keysNodup t'.ec2TagsCache := by
  obtain ⟨t₁, hmd, hk, hphase⟩ := Start_ok_elim t md svc t' hkeys hstart
  obtain ⟨tags, hf, ht'⟩ := startTagPhase_ok_spec t₁ t' svc hphase
  have hcache : t'.ec2TagsCache = tags := by rw [ht']; simp
  rw [hcache]
  unfold fetchFunc at hf
  exact fetchLoop_ok_keysNodup _ _ _ hf (by simp [keysNodup])

theorem foldl_refreshTick_errors (m : TagMap) :
    ∀ trailing : List (Except String TagMap),
      (∀ r ∈ trailing, ∃ e, r = Except.error e) →
      List.foldl refreshTick m trailing = m := by
  intro trailing
  induction trailing with
  | nil => intro _; rfl
  | cons r rest ih =>
      intro h
      obtain ⟨e, he⟩ := h r (List.mem_cons_self r rest)
      subst he
      rw [List.foldl_cons]
      exact ih (fun x hx => h x (List.mem_cons_of_mem _ hx))

/-- C2: a refresh tick whose fetch fails leaves the cached tag set exactly
as it was; a successful tick replaces it wholesale; and because the loop
`continue`s on errors, a run ending in a successful fetch (even when
followed by more failed ticks) leaves the cache equal to that fetch's
result. -/
theorem C2_refresh_error_keeps_cache :
    (∀ (cache : TagMap) (e : String), refreshTick cache (Except.error e) = cache) ∧
    (∀ (cache newTags : TagMap), refreshTick cache (Except.ok newTags) = newTags) ∧
    (∀ (cache m : TagMap) (results trailing : List (Except String TagMap)),
      (∀ r ∈ trailing, ∃ e, r = Except.error e) →
      refreshRun cache (results ++ Except.ok m :: trailing) = m) := by
  refine ⟨fun _ _ => rfl, fun _ _ => rfl, ?_⟩
  intro cache m results trailing htrail
  rw [refreshRun, List.foldl_append, List.foldl_cons]
  exact foldl_refreshTick_errors m trailing htrail

theorem C2_witness :
    (∀ r ∈ ([Except.error "boom"] : List (Except String TagMap)),
      ∃ e : String, r = Except.error e) ∧
    refreshRun [("A", "1")]
      ([Except.error "x"] ++ Except.ok [("B", "2")] :: [Except.error "boom"]) = [("B", "2")] := by
  have htrail : ∀ r ∈ ([Except.error "boom"] : List (Except String TagMap)),
      ∃ e : String, r = Except.error e := by
    intro r hr
    rw [List.mem_singleton] at hr
    exact ⟨"boom", hr⟩
  exact ⟨htrail,
    C2_refresh_error_keeps_cache.2.2 [("A", "1")] [("B", "2")]
      [Except.error "x"] [Except.error "boom"] htrail⟩

/-- C3 counterexample: at the non-negative duration D = 0 (allowed by the
claim) the modulo in `hostJitter` divides by zero, which panics in Go: no
value at all is returned, in particular none in [0, 0). -/
theorem C3_counterexample :
    ¬ ∃ r : Int, hostJitter [104, 111, 115, 116] 0 = some r := by
  rintro ⟨r, hr⟩
  simp [hostJitter] at hr

/-- C3 (amended): for every POSITIVE duration D and every host identifier
(byte string) h, hostJitter h D returns a value in [0, D); and it is a
pure function of (h, D), so repeated calls agree. -/
theorem C3_hostJitter_range (h : List Nat) (D : Int) (hD : 0 < D) :
    (∃ r, hostJitter h D = some r ∧ 0 ≤ r ∧ r < D) ∧
    hostJitter h D = hostJitter h D := by
  refine ⟨⟨Int.tmod ((fnv1Hash64 h >>> 1 : Nat) : Int) D, ?_, ?_, ?_⟩, rfl⟩
  · unfold hostJitter
    rw [if_neg (ne_of_gt hD)]
  · rw [Int.tmod_eq_emod (Int.natCast_nonneg _) (le_of_lt hD)]
    exact Int.emod_nonneg _ (ne_of_gt hD)
  · rw [Int.tmod_eq_emod (Int.natCast_nonneg _) (le_of_lt hD)]
    exact Int.emod_lt_of_pos _ hD

theorem C3_witness :
    (0 : Int) < 10 ∧
    ((∃ r, hostJitter [104, 111, 115, 116] 10 = some r ∧ 0 ≤ r ∧ r < 10) ∧
      hostJitter [104, 111, 115, 116] 10 = hostJitter [104, 111, 115, 116] 10) :=
  ⟨by decide, C3_hostJitter_range [104, 111, 115, 116] 10 (by decide)⟩

/-- C4: the DescribeTags filter list always contains the
resource-type = instance and resource-id = resolved-instance-id filters;
the wildcard configuration adds no key filter; any other non-empty
configuration yields exactly those two filters plus one key filter whose
values are the configured keys with AutoScalingGroupName translated to
aws:autoscaling:groupName. -/
theorem C4_filter_construction (t : Tagger) :
    ({ name := "resource-type", values := ["instance"] } : Filter) ∈ (t.getEC2TagsFetchFunc).2 ∧
    ({ name := "resource-id", values := [t.instanceId] } : Filter) ∈ (t.getEC2TagsFetchFunc).2 ∧
    (t.EC2InstanceTagKeys = ["*"] → ∀ f ∈ (t.getEC2TagsFetchFunc).2, f.name ≠ "key") ∧
    (t.EC2InstanceTagKeys ≠ ["*"] → t.EC2InstanceTagKeys ≠ [] →
      (t.getEC2TagsFetchFunc).2 =
        [{ name := "resource-type", values := ["instance"] },
         { name := "resource-id", values := [t.instanceId] },
         { name := "key", values := t.EC2InstanceTagKeys.map translateConfiguredKey }]) := by
  rw [fetchFunc_filters t]
  by_cases hw : t.isGettingAllEC2Tags = true
  · have hkeys := (isGettingAllEC2Tags_iff t).mp hw
    rw [if_pos hw]
    refine ⟨by simp, by simp, ?_, ?_⟩
    · intro _ f hf
      simp only [List.append_nil, List.mem_cons, List.not_mem_nil, or_false] at hf
      rcases hf with hf | hf
      · rw [hf]
        exact (by decide : ("resource-type" : String) ≠ "key")
      · rw [hf]
        exact (by decide : ("resource-id" : String) ≠ "key")
    · intro hne _
      exact absurd hkeys hne
  · have hkeys : t.EC2InstanceTagKeys ≠ ["*"] := fun hh =>
      hw ((isGettingAllEC2Tags_iff t).mpr hh)
    rw [if_neg hw]
    refine ⟨by simp, by simp, ?_, ?_⟩
    · intro heq
      exact absurd heq hkeys
    · intro _ _
      simp

theorem C4_witness :
    (({ EC2InstanceTagKeys := ["AutoScalingGroupName", "Name"],
        instanceId := "I1" } : Tagger).EC2InstanceTagKeys ≠ ["*"]) ∧
    (({ EC2InstanceTagKeys := ["AutoScalingGroupName", "Name"],
        instanceId := "I1" } : Tagger).EC2InstanceTagKeys ≠ []) ∧
    (({ EC2InstanceTagKeys := ["AutoScalingGroupName", "Name"],
        instanceId := "I1" } : Tagger).getEC2TagsFetchFunc).2 =
      [{ name := "resource-type", values := ["instance"] },
       { name := "resource-id", values := ["I1"] },
       { name := "key", values := ["aws:autoscaling:groupName", "Name"] }] := by
  refine ⟨by decide, by decide, ?_⟩
  have h := (C4_filter_construction
    { EC2InstanceTagKeys := ["AutoScalingGroupName", "Name"],
      instanceId := "I1" }).2.2.2 (by decide) (by decide)
  rw [h]
  rfl

theorem lookupTag_of_mem_nodup (k v : String) :
    ∀ l : TagMap, keysNodup l → (k, v) ∈ l → lookupTag k l = some v := by
  intro l
  induction l with
  | nil => intro _ h; cases h
  | cons hd tl ih =>
      intro hnd hmem
      obtain ⟨k₀, v₀⟩ := hd
      simp only [keysNodup, List.map_cons, List.nodup_cons] at hnd
      rcases List.mem_cons.mp hmem with h1 | h1
      · injection h1 with hk hv
        subst hk
        subst hv
        simp [lookupTag]
      · have hkne : ¬ k₀ = k := by
          intro he
          subst he
          exact hnd.1 (List.mem_map_of_mem Prod.fst h1)
        simp only [lookupTag, if_neg hkne]
        exact ih hnd.2 h1

/-- C5: the AutoScalingGroupName renaming is symmetric.  Fetch direction: a
successfully fetched mapping never contains the provider key
aws:autoscaling:groupName, and every page tag returned under that provider
key is stored — with its value — under AutoScalingGroupName (the fetched
keys being distinct after renaming, the remote per-resource unique-key
invariant).  Config direction: a configured request for
AutoScalingGroupName puts aws:autoscaling:groupName into the remote key
filter. -/
theorem C5_asg_rename_symmetry :
    (∀ (pages : List (Except String DescribeTagsOutput)) (m : TagMap),
       fetchLoop pages [] = Except.ok m →
       lookupTag ec2InstanceTagKeyASG m = none) ∧
    (∀ (mids : List DescribeTagsOutput) (lastPage : DescribeTagsOutput)
       (m : TagMap) (v : String),
       (∀ p ∈ mids, p.nextToken.isSome = true) → lastPage.nextToken = none →
       keysNodup (renamedEntries (pagesEntries (mids ++ [lastPage]))) →
       fetchLoop (mids.map Except.ok ++ [Except.ok lastPage]) [] = Except.ok m →
       (ec2InstanceTagKeyASG, v) ∈ pagesEntries (mids ++ [lastPage]) →
       lookupTag cwDimensionASG m = some v) ∧
    (∀ t : Tagger, t.isGettingAllEC2Tags = false →
       cwDimensionASG ∈ t.EC2InstanceTagKeys →
       ∃ f ∈ (t.getEC2TagsFetchFunc).2,
         f.name = "key" ∧ ec2InstanceTagKeyASG ∈ f.values) := by
  refine ⟨?_, ?_, ?_⟩
  · intro pages m hok
    rw [fetchLoop_ok_lookup_asg pages [] m hok]
    rfl
  · intro mids lastPage m v hmids hlast hnd hok hmem
    rw [fetchLoop_wellFormed mids lastPage [] hmids hlast] at hok
    injection hok with hok
    have hmem' : (cwDimensionASG, v) ∈ renamedEntries (pagesEntries (mids ++ [lastPage])) := by
      have hmm := List.mem_map_of_mem (fun kv => (renameFetchedKey kv.1, kv.2)) hmem
      have hr : renameFetchedKey ec2InstanceTagKeyASG = cwDimensionASG := by
        unfold renameFetchedKey
        rw [if_pos rfl]
      unfold renamedEntries
      rw [← hr]
      exact hmm
    have hv := lookupTag_of_mem_nodup cwDimensionASG v _ hnd hmem'
    rw [← hok, lookupTag_setTags,
        lookupLastTag_eq_lookupTag cwDimensionASG _ hnd, hv]
  · intro t hw hmem
    have hfilters := fetchFunc_filters t
    rw [if_neg (by rw [hw]; exact Bool.false_ne_true)] at hfilters
    refine ⟨{ name := "key", values := t.EC2InstanceTagKeys.map translateConfiguredKey },
      ?_, rfl, ?_⟩
    · rw [hfilters]
      simp
    · have : translateConfiguredKey cwDimensionASG = ec2InstanceTagKeyASG := by
        unfold translateConfiguredKey
        rw [if_pos rfl]
      rw [← this]
      exact List.mem_map_of_mem translateConfiguredKey hmem

theorem C5_witness :
    (lookupTag cwDimensionASG [("AutoScalingGroupName", "grp")] = some "grp") ∧
    (∃ f ∈ (({ EC2InstanceTagKeys := ["AutoScalingGroupName"] } : Tagger).getEC2TagsFetchFunc).2,
       f.name = "key" ∧ ec2InstanceTagKeyASG ∈ f.values) := by
  constructor
  · exact C5_asg_rename_symmetry.2.1 []
      { tags := [("aws:autoscaling:groupName", "grp")], nextToken := none }
      [("AutoScalingGroupName", "grp")] "grp"
      (by intro p hp; cases hp) rfl (by unfold keysNodup; decide) rfl (by decide)
  · exact C5_asg_rename_symmetry.2.2
      { EC2InstanceTagKeys := ["AutoScalingGroupName"] } (by decide) (by decide)

/-- C6: an error on any DescribeTags page aborts the whole fetch with that
error and no mapping, even when earlier pages had already yielded tags; if
every page succeeds, the fetch returns the flat union of all pages'
renamed entries. -/
theorem C6_page_error_aborts_fetch :
    (∀ (filters : List Filter) (svc : TagService) (mids : List DescribeTagsOutput)
       (e : String) (rest : List (Except String DescribeTagsOutput)),
       svc filters = mids.map Except.ok ++ Except.error e :: rest →
       (∀ p ∈ mids, p.nextToken.isSome = true) →
       fetchFunc filters svc = Except.error e) ∧
    (∀ (filters : List Filter) (svc : TagService) (mids : List DescribeTagsOutput)
       (lastPage : DescribeTagsOutput),
       svc filters = mids.map Except.ok ++ [Except.ok lastPage] →
       (∀ p ∈ mids, p.nextToken.isSome = true) → lastPage.nextToken = none →
       fetchFunc filters svc =
         Except.ok (setTags [] (renamedEntries (pagesEntries (mids ++ [lastPage]))))) := by
  constructor
  · intro filters svc mids e rest hsvc hmids
    unfold fetchFunc
    rw [hsvc]
    exact fetchLoop_error mids e rest [] hmids
  · intro filters svc mids lastPage hsvc hmids hlast
    unfold fetchFunc
    rw [hsvc]
    exact fetchLoop_wellFormed mids lastPage [] hmids hlast

theorem C6_witness :
    fetchFunc []
      (fun _ => [Except.ok { tags := [("A", "1")], nextToken := some "t" },
                 Except.error "boom"]) = Except.error "boom" ∧
    fetchFunc []
      (fun _ => [Except.ok { tags := [("A", "1")], nextToken := some "t" },
                 Except.ok { tags := [("B", "2")], nextToken := none }]) =
      Except.ok (setTags [] (renamedEntries (pagesEntries
        ([{ tags := [("A", "1")], nextToken := some "t" }] ++
         [{ tags := [("B", "2")], nextToken := none }])))) := by
  constructor
  · exact C6_page_error_aborts_fetch.1 []
      (fun _ => [Except.ok { tags := [("A", "1")], nextToken := some "t" },
                 Except.error "boom"])
      [{ tags := [("A", "1")], nextToken := some "t" }] "boom" []
      rfl (by decide)
  · exact C6_page_error_aborts_fetch.2 []
      (fun _ => [Except.ok { tags := [("A", "1")], nextToken := some "t" },
                 Except.ok { tags := [("B", "2")], nextToken := none }])
      [{ tags := [("A", "1")], nextToken := some "t" }]
      { tags := [("B", "2")], nextToken := none }
      rfl (by decide) rfl

/-- A concrete metadata endpoint used for concrete instantiations. -/
def mdSample : MetadataAPI :=
  { available := true,
    identityDocument := Except.ok { instanceID := "I1", instanceType := "T1",
                                    imageID := "M1", region := "R1" } }

/-- A concrete one-page tag service used for concrete instantiations. -/
def svcSample : TagService :=
  fun _ => [Except.ok { tags := [("A", "1")], nextToken := none }]

/-- A concrete Tagger configuration used for concrete instantiations. -/
def taggerSample : Tagger :=
  { RefreshInterval := -1,
    EC2MetadataTags := ["InstanceId", "InstanceType", "ImageId"],
    EC2InstanceTagKeys := ["*"] }

/-- C7: with a negative refresh interval and at least one configured tag
key, a successful Start performs exactly one fetch (the synchronous one in
Start), never launches the refresh scheduler, and therefore the lifetime
fetch count stays 1 however many timer ticks elapse. -/
theorem C7_negative_interval_one_fetch (t : Tagger) (md : MetadataAPI) (svc : TagService)
    (t' : Tagger)
    (hneg : t.RefreshInterval < 0) (hkeys : t.EC2InstanceTagKeys ≠ [])
    (hrs : t.refreshStarted = false)
    (hstart : t.Start md svc = (t', none)) :
    startFetchCount t md = 1 ∧ t'.refreshStarted = false ∧
    (∀ ticks : Nat, lifetimeFetchCount t md svc ticks = 1) := by
  obtain ⟨t₁, hmd, hk, hphase⟩ := Start_ok_elim t md svc t' hkeys hstart
  obtain ⟨doc, _, ht₁⟩ := getEC2Metadata_ok_spec t md t₁ hmd
  have hcount : startFetchCount t md = 1 := by
    have hg : t₁.isGettingEC2Tags = true :=
      (isGettingEC2Tags_iff t₁).mpr (by rw [hk]; exact hkeys)
    simp only [startFetchCount, hmd, hg, if_true]
  obtain ⟨tags, hf, ht'⟩ := startTagPhase_ok_spec t₁ t' svc hphase
  have hint₁ : t₁.RefreshInterval = t.RefreshInterval := by rw [ht₁]
  have hrs₁ : t₁.refreshStarted = t.refreshStarted := by rw [ht₁]
  have hintW : ({ (t₁.startSetup.getEC2TagsFetchFunc).1 with
      ec2TagsCache := tags } : Tagger).RefreshInterval = t.RefreshInterval := by
    have hs : t₁.startSetup.RefreshInterval = t.RefreshInterval := by
      rw [startSetup_interval, hint₁, if_neg (by omega)]
    show (t₁.startSetup.getEC2TagsFetchFunc).1.RefreshInterval = t.RefreshInterval
    rw [fetchFuncFst_interval, hs]
  have hrs' : t'.refreshStarted = false := by
    rw [ht', launchRefresh_refreshStarted]
    have h2 : ({ (t₁.startSetup.getEC2TagsFetchFunc).1 with
        ec2TagsCache := tags } : Tagger).isRefreshingEC2Tags = false := by
      unfold Tagger.isRefreshingEC2Tags
      rw [hintW]
      simp only [decide_eq_false_iff_not]
      omega
    have h3 : ({ (t₁.startSetup.getEC2TagsFetchFunc).1 with
        ec2TagsCache := tags } : Tagger).refreshStarted = false := by
      show (t₁.startSetup.getEC2TagsFetchFunc).1.refreshStarted = false
      rw [fetchFuncFst_refreshStarted, startSetup_refreshStarted, hrs₁, hrs]
    rw [h2, h3]
    rfl
  refine ⟨hcount, hrs', fun ticks => ?_⟩
  unfold lifetimeFetchCount
  rw [hstart]
  show startFetchCount t md + (if t'.refreshStarted = true then ticks else 0) = 1
  rw [hcount, hrs']
  simp

theorem C7_witness :
    (({ RefreshInterval := -1, EC2InstanceTagKeys := ["*"] } : Tagger).RefreshInterval < 0) ∧
    (({ RefreshInterval := -1, EC2InstanceTagKeys := ["*"] } : Tagger).EC2InstanceTagKeys ≠ []) ∧
    startFetchCount { RefreshInterval := -1, EC2InstanceTagKeys := ["*"] } mdSample = 1 ∧
    lifetimeFetchCount { RefreshInterval := -1, EC2InstanceTagKeys := ["*"] }
      mdSample svcSample 5 = 1 := by
  have h := C7_negative_interval_one_fetch
    { RefreshInterval := -1, EC2InstanceTagKeys := ["*"] } mdSample svcSample
    (({ RefreshInterval := -1, EC2InstanceTagKeys := ["*"] } : Tagger).Start
      mdSample svcSample).1
    (by decide) (by decide) rfl (by decide)
  exact ⟨by decide, by decide, h.1, h.2.2 5⟩

/-- C8 counterexample: with a negative interval and one configured tag key,
Start succeeds and creates the done channel even though the refresh
scheduler is never started — the handle exists while refreshing is
inactive, refuting the claimed equivalence. -/
theorem C8_counterexample :
    (({ RefreshInterval := -1, EC2InstanceTagKeys := ["*"] } : Tagger).Start
        mdSample svcSample).2 = none ∧
    (({ RefreshInterval := -1, EC2InstanceTagKeys := ["*"] } : Tagger).Start
        mdSample svcSample).1.done = some false ∧
    (({ RefreshInterval := -1, EC2InstanceTagKeys := ["*"] } : Tagger).Start
        mdSample svcSample).1.refreshStarted = false :=
  ⟨rfl, rfl, rfl⟩

/-- C8 (amended): after a successful Start from a fresh Tagger (nil done
channel), the done channel exists iff at least one tag key is configured —
independently of the refresh interval's sign, so not iff the refresh
scheduler was started. -/
theorem C8_done_iff_keys (t : Tagger) (md : MetadataAPI) (svc : TagService)
    (t' : Tagger)
    (hdone : t.done = none) (hstart : t.Start md svc = (t', none)) :
    t'.done.isSome = true ↔ t.EC2InstanceTagKeys ≠ [] := by
  by_cases hkeys : t.EC2InstanceTagKeys = []
  · have hm := Start_ok_elim_noKeys t md svc t' hkeys hstart
    obtain ⟨doc, _, ht'⟩ := getEC2Metadata_ok_spec t md t' hm
    have hd : t'.done = none := by rw [ht']; exact hdone
    simp [hd, hkeys]
  · obtain ⟨t₁, hmd, hk, hphase⟩ := Start_ok_elim t md svc t' hkeys hstart
    obtain ⟨tags, hf, ht'⟩ := startTagPhase_ok_spec t₁ t' svc hphase
    have hd : t'.done = some false := by
      rw [ht', launchRefresh_done]
      show (t₁.startSetup.getEC2TagsFetchFunc).1.done = some false
      rw [fetchFuncFst_done, startSetup_done]
    simp [hd, hkeys]

theorem C8_witness :
    (({ RefreshInterval := -1, EC2InstanceTagKeys := ["*"] } : Tagger).done = none) ∧
    ((({ RefreshInterval := -1, EC2InstanceTagKeys := ["*"] } : Tagger).Start
        mdSample svcSample).1.done.isSome = true ↔
      ({ RefreshInterval := -1, EC2InstanceTagKeys := ["*"] } : Tagger).EC2InstanceTagKeys ≠ []) :=
  ⟨rfl, C8_done_iff_keys { RefreshInterval := -1, EC2InstanceTagKeys := ["*"] }
    mdSample svcSample
    (({ RefreshInterval := -1, EC2InstanceTagKeys := ["*"] } : Tagger).Start
      mdSample svcSample).1
    rfl (by decide)⟩

/-- C9: a successful Start with a non-wildcard configured key list leaves
the Tagger's EC2InstanceTagKeys rewritten in place: every element that was
AutoScalingGroupName is now aws:autoscaling:groupName, all other elements
and the length are unchanged (the list equals the translation map of the
original). -/
theorem C9_keys_rewritten (t : Tagger) (md : MetadataAPI) (svc : TagService)
    (t' : Tagger)
    (hkeys : t.EC2InstanceTagKeys ≠ []) (hwild : t.EC2InstanceTagKeys ≠ ["*"])
    (hstart : t.Start md svc = (t', none)) :
    t'.EC2InstanceTagKeys = t.EC2InstanceTagKeys.map translateConfiguredKey ∧
    t'.EC2InstanceTagKeys.length = t.EC2InstanceTagKeys.length := by
  obtain ⟨t₁, hmd, hk, hphase⟩ := Start_ok_elim t md svc t' hkeys hstart
  obtain ⟨tags, hf, ht'⟩ := startTagPhase_ok_spec t₁ t' svc hphase
  have hwild₂ : ¬ t₁.startSetup.isGettingAllEC2Tags = true := by
    rw [isGettingAllEC2Tags_iff, startSetup_keys, hk]
    exact hwild
  have hmain : t'.EC2InstanceTagKeys = t.EC2InstanceTagKeys.map translateConfiguredKey := by
    rw [ht', launchRefresh_keys]
    show (t₁.startSetup.getEC2TagsFetchFunc).1.EC2InstanceTagKeys = _
    rw [fetchFuncFst_keys, if_neg hwild₂, startSetup_keys, hk]
  exact ⟨hmain, by rw [hmain, List.length_map]⟩

theorem C9_witness :
    (({ EC2InstanceTagKeys := ["AutoScalingGroupName", "Name"] } : Tagger).EC2InstanceTagKeys ≠ []) ∧
    (({ EC2InstanceTagKeys := ["AutoScalingGroupName", "Name"] } : Tagger).EC2InstanceTagKeys ≠ ["*"]) ∧
    ((({ EC2InstanceTagKeys := ["AutoScalingGroupName", "Name"] } : Tagger).Start
        mdSample svcSample).1.EC2InstanceTagKeys = ["aws:autoscaling:groupName", "Name"]) := by
  have h := C9_keys_rewritten
    { EC2InstanceTagKeys := ["AutoScalingGroupName", "Name"] } mdSample svcSample
    (({ EC2InstanceTagKeys := ["AutoScalingGroupName", "Name"] } : Tagger).Start
      mdSample svcSample).1
    (by decide) (by decide) (by decide)
  refine ⟨by decide, by decide, ?_⟩
  rw [h.1]
  rfl

/-- C10: after a successful Start in which no tag key was configured the
done channel was never created, so a single Stop is a safe no-op that
leaves the state unchanged; and whenever an open done channel exists, a
single Stop closes it. -/
theorem C10_stop_safe (t : Tagger) (md : MetadataAPI) (svc : TagService)
    (t' : Tagger)
    (hkeys : t.EC2InstanceTagKeys = []) (hdone : t.done = none)
    (hstart : t.Start md svc = (t', none)) :
    t'.Stop = some t' ∧
    (∀ u : Tagger, u.done = some false → u.Stop = some { u with done := some true }) := by
  constructor
  · have hm := Start_ok_elim_noKeys t md svc t' hkeys hstart
    obtain ⟨doc, _, ht'⟩ := getEC2Metadata_ok_spec t md t' hm
    have hd : t'.done = none := by rw [ht']; exact hdone
    unfold Tagger.Stop
    rw [hd]
  · intro u hu
    unfold Tagger.Stop
    rw [hu]

theorem C10_witness :
    (({ } : Tagger).EC2InstanceTagKeys = []) ∧ (({ } : Tagger).done = none) ∧
    ((({ } : Tagger).Start mdSample svcSample).1.Stop =
      some (({ } : Tagger).Start mdSample svcSample).1) ∧
    (({ done := some false } : Tagger).Stop = some ({ done := some true } : Tagger)) := by
  have h := C10_stop_safe { } mdSample svcSample
    (({ } : Tagger).Start mdSample svcSample).1 rfl rfl (by decide)
  exact ⟨rfl, rfl, h.1, h.2 { done := some false } rfl⟩

/-- `Apply` on a single metric is `applyOne` on it. -/
theorem Apply_singleton (t : Tagger) (m : Metric) :
    t.Apply [m] = match t.applyOne m with
      | none => none
      | some r => some [r] := by
  unfold Tagger.Apply
  cases h : t.applyOne m <;> simp [List.mapM, List.mapM.loop, h]

/-- C1 counterexample: with metadata tag InstanceId configured and a first
fetch whose tag set itself contains the key InstanceId, Apply overwrites
the cached pair with the StaticIdentity value, so the applied record does
NOT carry every key/value pair of the cached tag set: the cache holds
("InstanceId", "zzz") but the record ends with InstanceId = "I1". -/
theorem C1_counterexample :
    (({ RefreshInterval := -1, EC2MetadataTags := ["InstanceId"],
        EC2InstanceTagKeys := ["*"] } : Tagger).Start mdSample
        (fun _ => [Except.ok { tags := [("InstanceId", "zzz")], nextToken := none }])).2
      = none ∧
    ("InstanceId", "zzz") ∈
      (({ RefreshInterval := -1, EC2MetadataTags := ["InstanceId"],
          EC2InstanceTagKeys := ["*"] } : Tagger).Start mdSample
          (fun _ => [Except.ok { tags := [("InstanceId", "zzz")], nextToken := none }])).1.ec2TagsCache ∧
    (({ RefreshInterval := -1, EC2MetadataTags := ["InstanceId"],
        EC2InstanceTagKeys := ["*"] } : Tagger).Start mdSample
        (fun _ => [Except.ok { tags := [("InstanceId", "zzz")], nextToken := none }])).1.Apply
      [{ tags := [] }] = some [{ tags := [("InstanceId", "I1")] }] ∧
    ("InstanceId", "zzz") ∉ [(("InstanceId" : String), ("I1" : String))] :=
  ⟨rfl, by decide, rfl, by decide⟩

/-- C1 (amended): after Start succeeds with at least one configured tag key
and all configured metadata attribute names among InstanceId, InstanceType
and ImageId, Apply on a metric with no pre-existing tags yields exactly the
cached tag set of the first fetch plus the configured StaticIdentity tags,
with the StaticIdentity value taking precedence when a cached key collides
with a configured metadata name; no other tags appear. -/
theorem C1_apply_after_start (t : Tagger) (md : MetadataAPI) (svc : TagService)
    (t' : Tagger) (m : Metric)
    (hkeys : t.EC2InstanceTagKeys ≠ [])
    (hsup : ∀ tag ∈ t.EC2MetadataTags,
      tag = mdKeyInstanceId ∨ tag = mdKeyImageId ∨ tag = mdKeyInstaneType)
    (hstart : t.Start md svc = (t', none)) (hm : m.tags = []) :
    ∃ res, t'.Apply [m] = some [res] ∧
      ∀ k, lookupTag k res.tags =
        if k ∈ t'.EC2MetadataTags then some (metadataValue t' k)
        else lookupTag k t'.ec2TagsCache := by
  have hsup' : ∀ tag ∈ t'.EC2MetadataTags,
      tag = mdKeyInstanceId ∨ tag = mdKeyImageId ∨ tag = mdKeyInstaneType := by
    rw [Start_preserves_mdTags t md svc t' hstart]
    exact hsup
  have hnodup := Start_cache_keysNodup t md svc t' hkeys hstart
  obtain ⟨res, hres, hlook⟩ := applyOne_lookup t' m hsup' hnodup hm
  refine ⟨res, ?_, hlook⟩
  rw [Apply_singleton, hres]

theorem C1_witness :
    (taggerSample.EC2InstanceTagKeys ≠ []) ∧
    (∃ res,
      (taggerSample.Start mdSample svcSample).1.Apply [{ tags := [] }] = some [res] ∧
      ∀ k, lookupTag k res.tags =
        if k ∈ (taggerSample.Start mdSample svcSample).1.EC2MetadataTags
        then some (metadataValue (taggerSample.Start mdSample svcSample).1 k)
        else lookupTag k (taggerSample.Start mdSample svcSample).1.ec2TagsCache) :=
  ⟨by decide,
    C1_apply_after_start taggerSample mdSample svcSample
      (taggerSample.Start mdSample svcSample).1 { tags := [] }
      (by decide) (by decide) (by decide) rfl⟩

end Ec2Tagger
